import Mathlib

/-!
Verification development for the crypto-arbitrage repository
(price-poller connectors, the prices table, and the
GET /api/arbitrage/opportunities matcher).

Modelling conventions: prices, fees and percentages are exact rationals
(the database columns are exact numeric values); timestamps are integers
counting epoch seconds, and NOW() at query time is an explicit parameter
called now.  SQL rows become Lean structures, SQL queries become list
functions, and thrown JS exceptions become Except values.
-/

namespace CryptoArb

/-- A row of the exchanges reference table: id, name, fractional
trading fee and active flag. -/
structure Exchange where
  id : Nat
  name : String
  tradingFee : ℚ
  isActive : Bool
  deriving DecidableEq

/-- A row of the trading_pairs reference table. -/
structure TradingPair where
  id : Nat
  symbol : String
  baseCurrency : String
  quoteCurrency : String
  isActive : Bool
  deriving DecidableEq

/-- A row of the prices table.  bid, ask and volume_24h are nullable
columns, hence Option. -/
structure PriceRow where
  id : Nat
  exchangeId : Nat
  tradingPairId : Nat
  price : ℚ
  volume24h : Option ℚ
  bid : Option ℚ
  ask : Option ℚ
  timestamp : ℤ
  deriving DecidableEq

/-- The freshness window of the opportunities query: INTERVAL 2 minutes,
in seconds. -/
def matchWindow : ℤ := 120

/-- The SQL predicate p.timestamp > NOW() - INTERVAL, with now and the
window passed explicitly.  Note the comparison is strict. -/
def isFresh (now w : ℤ) (p : PriceRow) : Bool :=
  decide (now - w < p.timestamp)

/-- The rows of the prices table that pass the freshness predicate. -/
def freshRows (prices : List PriceRow) (now w : ℤ) : List PriceRow :=
  prices.filter (isFresh now w)

/-- The row selected by SELECT DISTINCT ON (exchange_id, trading_pair_id)
... ORDER BY exchange_id, trading_pair_id, timestamp DESC for one key:
the row with the greatest timestamp among the rows of that key.  Postgres
leaves ties unspecified; this model keeps the earliest such row in list
order.  pickLatest keeps the head row on timestamp ties. -/
def pickLatest (p : PriceRow) (rest : Option PriceRow) : Option PriceRow :=
  match rest with
  | none => some p
  | some q => if q.timestamp ≤ p.timestamp then some p else some q

def latestFor : List PriceRow → Nat → Nat → Option PriceRow
  | [], _, _ => none
  | p :: rows, ex, tp =>
      if p.exchangeId = ex ∧ p.tradingPairId = tp then
        pickLatest p (latestFor rows ex tp)
      else latestFor rows ex tp

/-- The SQL condition p.id IN (SELECT DISTINCT ON (exchange_id,
trading_pair_id) id FROM prices WHERE fresh ORDER BY ..., timestamp DESC),
evaluated against the given (already freshness-filtered) row list. -/
def isLatestIn (rows : List PriceRow) (p : PriceRow) : Bool :=
  match latestFor rows p.exchangeId p.tradingPairId with
  | some q => decide (q.id = p.id)
  | none => false

/-- The spread_percentage column: (p2.bid - p1.ask) / p1.ask * 100.0. -/
def spreadPct (a b : ℚ) : ℚ := (b - a) / a * 100

/-- The profit_after_fees column:
(p2.bid * (1.0 - e2.trading_fee) - p1.ask * (1.0 + e1.trading_fee)) /
(p1.ask * (1.0 + e1.trading_fee)) * 100.0. -/
def profitAfterFeesPct (a b buyFee sellFee : ℚ) : ℚ :=
  (b * (1 - sellFee) - a * (1 + buyFee)) / (a * (1 + buyFee)) * 100

/-- One output row of the opportunities query.  The SELECT list exposes
the symbol and exchange names; the exchange ids (used in the join
condition e1.id < e2.id) are carried alongside so that statements about
exchange distinctness do not depend on name uniqueness. -/
structure Opportunity where
  tradingPair : String
  baseCurrency : String
  quoteCurrency : String
  buyExchangeId : Nat
  sellExchangeId : Nat
  buyExchange : String
  sellExchange : String
  buyPrice : ℚ
  sellPrice : ℚ
  buyFee : ℚ
  sellFee : ℚ
  spreadPercentage : ℚ
  profitAfterFees : ℚ
  buyTimestamp : ℤ
  sellTimestamp : ℤ
  maxAgeSeconds : ℤ
  deriving DecidableEq

/-- The SELECT list of the opportunities query for a joined row
(p1, e1, tp, p2, e2) whose ask and bid are a and b. -/
def mkOpportunity (now : ℤ) (tp : TradingPair) (e1 e2 : Exchange)
    (p1 p2 : PriceRow) (a b : ℚ) : Opportunity :=
  { tradingPair := tp.symbol
    baseCurrency := tp.baseCurrency
    quoteCurrency := tp.quoteCurrency
    buyExchangeId := e1.id
    sellExchangeId := e2.id
    buyExchange := e1.name
    sellExchange := e2.name
    buyPrice := a
    sellPrice := b
    buyFee := e1.tradingFee
    sellFee := e2.tradingFee
    spreadPercentage := spreadPct a b
    profitAfterFees := profitAfterFeesPct a b e1.tradingFee e2.tradingFee
    buyTimestamp := p1.timestamp
    sellTimestamp := p2.timestamp
    maxAgeSeconds := max (now - p1.timestamp) (now - p2.timestamp) }

/-- One joined row of the opportunities query: the ON conditions of the
joins together with the WHERE clause, emitting the SELECT row when all
hold.  minProfit is the bound query parameter. -/
def rowPair (prices : List PriceRow) (now : ℤ) (minProfit : ℚ)
    (p1 : PriceRow) (e1 : Exchange) (tp : TradingPair)
    (p2 : PriceRow) (e2 : Exchange) : List Opportunity :=
  match p1.ask, p2.bid with
  | some a, some b =>
      if p1.exchangeId = e1.id ∧ p1.tradingPairId = tp.id
          ∧ p2.tradingPairId = p1.tradingPairId ∧ p2.exchangeId = e2.id
          ∧ e1.isActive = true ∧ e2.isActive = true ∧ tp.isActive = true
          ∧ e1.id < e2.id ∧ a < b
          ∧ isFresh now matchWindow p1 = true ∧ isFresh now matchWindow p2 = true
          ∧ isLatestIn (freshRows prices now matchWindow) p1 = true
          ∧ isLatestIn (freshRows prices now matchWindow) p2 = true
          ∧ minProfit < profitAfterFeesPct a b e1.tradingFee e2.tradingFee
      then [mkOpportunity now tp e1 e2 p1 p2 a b]
      else []
  | _, _ => []

/-- The FROM clause of the opportunities query: prices p1 x exchanges e1
x trading_pairs tp x prices p2 x exchanges e2, filtered by rowPair. -/
def oppCandidates (exchanges : List Exchange) (pairs : List TradingPair)
    (prices : List PriceRow) (now : ℤ) (minProfit : ℚ) : List Opportunity :=
  prices.flatMap fun p1 =>
    exchanges.flatMap fun e1 =>
      pairs.flatMap fun tp =>
        prices.flatMap fun p2 =>
          exchanges.flatMap fun e2 =>
            rowPair prices now minProfit p1 e1 tp p2 e2

/-- Insertion step for sorting ORDER BY profit_after_fees DESC. -/
def insertByProfit (o : Opportunity) : List Opportunity → List Opportunity
  | [] => [o]
  | x :: xs =>
      if x.profitAfterFees ≤ o.profitAfterFees then o :: x :: xs
      else x :: insertByProfit o xs

/-- ORDER BY profit_after_fees DESC (insertion sort; SQL leaves the
relative order of equal keys unspecified). -/
def sortByProfitDesc (l : List Opportunity) : List Opportunity :=
  l.foldr insertByProfit []

/-- The full GET /api/arbitrage/opportunities result:
joined candidates, ordered by profit descending, LIMIT 50. -/
def arbitrageOpportunities (exchanges : List Exchange) (pairs : List TradingPair)
    (prices : List PriceRow) (now : ℤ) (minProfit : ℚ) : List Opportunity :=
  (sortByProfitDesc (oppCandidates exchanges pairs prices now minProfit)).take 50

/-- The effective threshold of the endpoint:
parseFloat(req.query.minProfit as string) || 0.1.  The argument is the
result of parseFloat, with none standing for NaN (parameter missing or
not numeric); 0 is falsy in JS, so it also falls back to the 0.1
default. -/
def effectiveMinProfit (parsedMinProfit : Option ℚ) : ℚ :=
  match parsedMinProfit with
  | none => 1 / 10
  | some x => if x = 0 then 1 / 10 else x

/-- Declarative description of one emitted joined row: the row pair
(p1, e1, tp, p2, e2) exists in the tables, satisfies every ON and WHERE
condition of the opportunities query, and o is its SELECT row. -/
def EmittedCombo (exchanges : List Exchange) (pairs : List TradingPair)
    (prices : List PriceRow) (now : ℤ) (minProfit : ℚ) (o : Opportunity) : Prop :=
  ∃ p1 e1 tp p2 e2 a b,
    p1 ∈ prices ∧ e1 ∈ exchanges ∧ tp ∈ pairs ∧ p2 ∈ prices ∧ e2 ∈ exchanges ∧
    p1.ask = some a ∧ p2.bid = some b ∧
    p1.exchangeId = e1.id ∧ p1.tradingPairId = tp.id ∧
    p2.tradingPairId = p1.tradingPairId ∧ p2.exchangeId = e2.id ∧
    e1.isActive = true ∧ e2.isActive = true ∧ tp.isActive = true ∧
    e1.id < e2.id ∧ a < b ∧
    isFresh now matchWindow p1 = true ∧ isFresh now matchWindow p2 = true ∧
    isLatestIn (freshRows prices now matchWindow) p1 = true ∧
    isLatestIn (freshRows prices now matchWindow) p2 = true ∧
    minProfit < profitAfterFeesPct a b e1.tradingFee e2.tradingFee ∧
    o = mkOpportunity now tp e1 e2 p1 p2 a b

theorem mem_rowPair {prices : List PriceRow} {now : ℤ} {minProfit : ℚ}
    {p1 : PriceRow} {e1 : Exchange} {tp : TradingPair} {p2 : PriceRow} {e2 : Exchange}
    {o : Opportunity} :
    o ∈ rowPair prices now minProfit p1 e1 tp p2 e2 ↔
      ∃ a b, p1.ask = some a ∧ p2.bid = some b ∧
        (p1.exchangeId = e1.id ∧ p1.tradingPairId = tp.id
          ∧ p2.tradingPairId = p1.tradingPairId ∧ p2.exchangeId = e2.id
          ∧ e1.isActive = true ∧ e2.isActive = true ∧ tp.isActive = true
          ∧ e1.id < e2.id ∧ a < b
          ∧ isFresh now matchWindow p1 = true ∧ isFresh now matchWindow p2 = true
          ∧ isLatestIn (freshRows prices now matchWindow) p1 = true
          ∧ isLatestIn (freshRows prices now matchWindow) p2 = true
          ∧ minProfit < profitAfterFeesPct a b e1.tradingFee e2.tradingFee)
        ∧ o = mkOpportunity now tp e1 e2 p1 p2 a b := by
  cases hask : p1.ask with
  | none => simp [rowPair, hask]
  | some a =>
    cases hbid : p2.bid with
    | none => simp [rowPair, hask, hbid]
    | some b =>
      simp only [rowPair, hask, hbid, Option.some.injEq]
      split_ifs with h
      · constructor
        · intro ho
          rw [List.mem_singleton] at ho
          exact ⟨a, b, rfl, rfl, h, ho⟩
        · rintro ⟨a0, b0, ha0, hb0, _, rfl⟩
          rw [List.mem_singleton]
          rw [ha0, hb0]
      · constructor
        · intro ho
          exact absurd ho (List.not_mem_nil o)
        · rintro ⟨a0, b0, ha0, hb0, hc, rfl⟩
          subst ha0
          subst hb0
          exact absurd hc h

theorem mem_oppCandidates {exchanges : List Exchange} {pairs : List TradingPair}
    {prices : List PriceRow} {now : ℤ} {minProfit : ℚ} {o : Opportunity} :
    o ∈ oppCandidates exchanges pairs prices now minProfit ↔
      EmittedCombo exchanges pairs prices now minProfit o := by
  simp only [oppCandidates, List.mem_flatMap, EmittedCombo]
  constructor
  · rintro ⟨p1, hp1, e1, he1, tp, htp, p2, hp2, e2, he2, hrow⟩
    obtain ⟨a, b, hask, hbid, hc, rfl⟩ := mem_rowPair.mp hrow
    obtain ⟨h1, h2, h3, h4, h5, h6, h7, h8, h9, h10, h11, h12, h13, h14⟩ := hc
    exact ⟨p1, e1, tp, p2, e2, a, b, hp1, he1, htp, hp2, he2, hask, hbid,
      h1, h2, h3, h4, h5, h6, h7, h8, h9, h10, h11, h12, h13, h14, rfl⟩
  · rintro ⟨p1, e1, tp, p2, e2, a, b, hp1, he1, htp, hp2, he2, hask, hbid,
      h1, h2, h3, h4, h5, h6, h7, h8, h9, h10, h11, h12, h13, h14, rfl⟩
    refine ⟨p1, hp1, e1, he1, tp, htp, p2, hp2, e2, he2, ?_⟩
    exact mem_rowPair.mpr ⟨a, b, hask, hbid,
      ⟨h1, h2, h3, h4, h5, h6, h7, h8, h9, h10, h11, h12, h13, h14⟩, rfl⟩

theorem mem_insertByProfit {o x : Opportunity} {l : List Opportunity} :
    x ∈ insertByProfit o l ↔ x = o ∨ x ∈ l := by
  induction l with
  | nil => simp [insertByProfit]
  | cons y ys ih =>
    simp only [insertByProfit]
    split_ifs
    · simp
    · simp only [List.mem_cons, ih]
      tauto

theorem mem_sortByProfitDesc {x : Opportunity} {l : List Opportunity} :
    x ∈ sortByProfitDesc l ↔ x ∈ l := by
  induction l with
  | nil => simp [sortByProfitDesc]
  | cons y ys ih =>
    simp only [sortByProfitDesc, List.foldr_cons] at *
    rw [mem_insertByProfit, ih, List.mem_cons]

theorem length_insertByProfit (o : Opportunity) (l : List Opportunity) :
    (insertByProfit o l).length = l.length + 1 := by
  induction l with
  | nil => simp [insertByProfit]
  | cons y ys ih =>
    simp only [insertByProfit]
    split_ifs
    · simp
    · simp [ih]

theorem length_sortByProfitDesc (l : List Opportunity) :
    (sortByProfitDesc l).length = l.length := by
  induction l with
  | nil => simp [sortByProfitDesc]
  | cons y ys ih =>
    simp only [sortByProfitDesc, List.foldr_cons] at *
    rw [length_insertByProfit, ih, List.length_cons]

theorem emittedCombo_of_mem_arbitrage {exchanges : List Exchange}
    {pairs : List TradingPair} {prices : List PriceRow} {now : ℤ} {minProfit : ℚ}
    {o : Opportunity} (h : o ∈ arbitrageOpportunities exchanges pairs prices now minProfit) :
    EmittedCombo exchanges pairs prices now minProfit o := by
  have h1 : o ∈ sortByProfitDesc (oppCandidates exchanges pairs prices now minProfit) :=
    List.take_subset 50 _ h
  exact mem_oppCandidates.mp (mem_sortByProfitDesc.mp h1)

theorem mem_arbitrage_of_emittedCombo {exchanges : List Exchange}
    {pairs : List TradingPair} {prices : List PriceRow} {now : ℤ} {minProfit : ℚ}
    {o : Opportunity}
    (h50 : (oppCandidates exchanges pairs prices now minProfit).length ≤ 50)
    (h : EmittedCombo exchanges pairs prices now minProfit o) :
    o ∈ arbitrageOpportunities exchanges pairs prices now minProfit := by
  have h1 : o ∈ sortByProfitDesc (oppCandidates exchanges pairs prices now minProfit) :=
    mem_sortByProfitDesc.mpr (mem_oppCandidates.mpr h)
  have h2 : (sortByProfitDesc (oppCandidates exchanges pairs prices now minProfit)).length ≤ 50 := by
    rw [length_sortByProfitDesc]
    exact h50
  unfold arbitrageOpportunities
  rw [List.take_of_length_le h2]
  exact h1

/-! Concrete table fixtures used by the counterexamples and witnesses. -/

/-- Canonical trading pair used by the concrete scenarios. -/
def pairBTC : TradingPair :=
  { id := 1, symbol := "BTC_USD", baseCurrency := "BTC", quoteCurrency := "USD",
    isActive := true }

/-- Three zero-fee exchanges quoting the same pair (concrete scenario 3). -/
def s3exA : Exchange := { id := 1, name := "A", tradingFee := 0, isActive := true }

def s3exB : Exchange := { id := 2, name := "B", tradingFee := 0, isActive := true }

def s3exC : Exchange := { id := 3, name := "C", tradingFee := 0, isActive := true }

def s3rowA : PriceRow :=
  { id := 1, exchangeId := 1, tradingPairId := 1, price := 100, volume24h := none,
    bid := some 99, ask := some 100, timestamp := 0 }

def s3rowB : PriceRow :=
  { id := 2, exchangeId := 2, tradingPairId := 1, price := 150, volume24h := none,
    bid := some 149, ask := some 150, timestamp := 0 }

def s3rowC : PriceRow :=
  { id := 3, exchangeId := 3, tradingPairId := 1, price := 200, volume24h := none,
    bid := some 199, ask := some 200, timestamp := 0 }

/-! ## C1 -/

/-- C1, counterexample.  The spec says the matcher emits at most one
opportunity per pair, built from the global minimum ask and the global
maximum bid.  On a snapshot of three fresh exchanges quoting BTC_USD
(asks 100, 150, 200; bids 99, 149, 199) the query returns three rows for
the one pair: every exchange pair with lower id buying, not only the
extremal combination (buy at ask 100 on exchange 1, sell at bid 199 on
exchange 3). -/
theorem c1_counterexample :
    arbitrageOpportunities [s3exA, s3exB, s3exC] [pairBTC] [s3rowA, s3rowB, s3rowC] 0 (1 / 10)
      = [mkOpportunity 0 pairBTC s3exA s3exC s3rowA s3rowC 100 199,
         mkOpportunity 0 pairBTC s3exA s3exB s3rowA s3rowB 100 149,
         mkOpportunity 0 pairBTC s3exB s3exC s3rowB s3rowC 150 199] := by
  norm_num [arbitrageOpportunities, oppCandidates, rowPair, mkOpportunity, sortByProfitDesc,
    insertByProfit, isLatestIn, latestFor, pickLatest, freshRows, isFresh, spreadPct, profitAfterFeesPct,
    matchWindow, s3exA, s3exB, s3exC, pairBTC, s3rowA, s3rowB, s3rowC]

/-- C1, amended.  The matcher does not reduce each pair to its global
minimum-ask and maximum-bid entries: whenever the candidate set fits the
LIMIT of 50 rows, the emitted opportunities are exactly the SELECT rows
of every pair of fresh latest entries (p1, e1), (p2, e2) of a common
trading pair with e1.id < e2.id, p2.bid > p1.ask and fee-adjusted profit
above the threshold — so several opportunities per pair, and
combinations other than the extremal one, are emitted. -/
theorem c1_matcher_emits_every_qualifying_combination
    (exchanges : List Exchange) (pairs : List TradingPair) (prices : List PriceRow)
    (now : ℤ) (minProfit : ℚ)
    (h50 : (oppCandidates exchanges pairs prices now minProfit).length ≤ 50)
    (o : Opportunity) :
    o ∈ arbitrageOpportunities exchanges pairs prices now minProfit ↔
      EmittedCombo exchanges pairs prices now minProfit o :=
  ⟨emittedCombo_of_mem_arbitrage, mem_arbitrage_of_emittedCombo h50⟩

/-- C1, witness: the amended theorem applied to the three-exchange
snapshot. -/
theorem c1_witness :
    (oppCandidates [s3exA, s3exB, s3exC] [pairBTC] [s3rowA, s3rowB, s3rowC] 0 (1 / 10)).length ≤ 50
    ∧ (mkOpportunity 0 pairBTC s3exA s3exB s3rowA s3rowB 100 149
        ∈ arbitrageOpportunities [s3exA, s3exB, s3exC] [pairBTC] [s3rowA, s3rowB, s3rowC] 0 (1 / 10)
      ↔ EmittedCombo [s3exA, s3exB, s3exC] [pairBTC] [s3rowA, s3rowB, s3rowC] 0 (1 / 10)
          (mkOpportunity 0 pairBTC s3exA s3exB s3rowA s3rowB 100 149)) := by
  have hlen : (oppCandidates [s3exA, s3exB, s3exC] [pairBTC] [s3rowA, s3rowB, s3rowC] 0 (1 / 10)).length ≤ 50 := by
    norm_num [oppCandidates, rowPair, mkOpportunity, isLatestIn, latestFor, pickLatest, freshRows, isFresh,
      spreadPct, profitAfterFeesPct, matchWindow, s3exA, s3exB, s3exC, pairBTC,
      s3rowA, s3rowB, s3rowC]
  exact ⟨hlen, c1_matcher_emits_every_qualifying_combination
    [s3exA, s3exB, s3exC] [pairBTC] [s3rowA, s3rowB, s3rowC] 0 (1 / 10) hlen _⟩

/-! ## C2 -/

/-- Crossed-book fixture: on exchange 1 the pair has both the cheapest
ask (100 against 151) and the most expensive bid (200 against 150). -/
def crossRowA : PriceRow :=
  { id := 1, exchangeId := 1, tradingPairId := 1, price := 100, volume24h := none,
    bid := some 200, ask := some 100, timestamp := 0 }

def crossRowB : PriceRow :=
  { id := 2, exchangeId := 2, tradingPairId := 1, price := 150, volume24h := none,
    bid := some 150, ask := some 151, timestamp := 0 }

/-- C2, counterexample.  The single cheapest ask (100 on exchange 1, the
other ask being 151) and the single most expensive bid (200 on exchange
1, the other bid being 150) both belong to exchange 1, so the spec says
no opportunity exists for the pair; the query still returns the row
buying at 100 on exchange 1 and selling at 150 on exchange 2. -/
theorem c2_counterexample :
    arbitrageOpportunities [s3exA, s3exB] [pairBTC] [crossRowA, crossRowB] 0 (1 / 10)
      = [mkOpportunity 0 pairBTC s3exA s3exB crossRowA crossRowB 100 150]
    ∧ (100 : ℚ) < 151 ∧ (150 : ℚ) < 200 := by
  refine ⟨?_, by norm_num, by norm_num⟩
  norm_num [arbitrageOpportunities, oppCandidates, rowPair, mkOpportunity, sortByProfitDesc,
    insertByProfit, isLatestIn, latestFor, pickLatest, freshRows, isFresh, spreadPct, profitAfterFeesPct,
    matchWindow, s3exA, s3exB, pairBTC, crossRowA, crossRowB]

/-- C2, amended.  The join condition e1.id < e2.id does guarantee that
the buy and the sell side of every emitted opportunity are different
exchanges (the buy side always has the smaller id); but when one
exchange holds both extremes, opportunities built from non-extremal
entries of the pair can still be emitted, as the counterexample
shows. -/
theorem c2_no_single_exchange_opportunity
    (exchanges : List Exchange) (pairs : List TradingPair) (prices : List PriceRow)
    (now : ℤ) (minProfit : ℚ) (o : Opportunity)
    (h : o ∈ arbitrageOpportunities exchanges pairs prices now minProfit) :
    o.buyExchangeId < o.sellExchangeId := by
  obtain ⟨p1, e1, tp, p2, e2, a, b, _, _, _, _, _, _, _, _, _, _, _, _, _, _,
    hlt, _, _, _, _, _, _, rfl⟩ := emittedCombo_of_mem_arbitrage h
  simpa [mkOpportunity] using hlt

/-- C2, witness: the amended theorem applied to the crossed-book
snapshot. -/
theorem c2_witness :
    (mkOpportunity 0 pairBTC s3exA s3exB crossRowA crossRowB 100 150).buyExchangeId
      < (mkOpportunity 0 pairBTC s3exA s3exB crossRowA crossRowB 100 150).sellExchangeId := by
  refine c2_no_single_exchange_opportunity [s3exA, s3exB] [pairBTC] [crossRowA, crossRowB]
    0 (1 / 10) _ ?_
  norm_num [arbitrageOpportunities, oppCandidates, rowPair, mkOpportunity, sortByProfitDesc,
    insertByProfit, isLatestIn, latestFor, pickLatest, freshRows, isFresh, spreadPct, profitAfterFeesPct,
    matchWindow, s3exA, s3exB, pairBTC, crossRowA, crossRowB]

/-! ## C3 -/

/-- Flat fixture: both exchanges quote bid = ask = 100 at zero fee, so
the fee-adjusted profit of the cross-exchange combination is exactly 0. -/
def flatRowA : PriceRow :=
  { id := 1, exchangeId := 1, tradingPairId := 1, price := 100, volume24h := none,
    bid := some 100, ask := some 100, timestamp := 0 }

def flatRowB : PriceRow :=
  { id := 2, exchangeId := 2, tradingPairId := 1, price := 100, volume24h := none,
    bid := some 100, ask := some 100, timestamp := 0 }

/-- C3, counterexample.  With the caller-supplied threshold -1 (the
endpoint passes any nonzero numeric minProfit straight through), the
flat combination has profit 0, which is strictly greater than the
threshold, yet no opportunity is emitted: the WHERE clause also requires
p2.bid > p1.ask, which fails here.  So emission is not equivalent to
profit exceeding the threshold. -/
theorem c3_counterexample :
    (-1 : ℚ) < profitAfterFeesPct 100 100 s3exA.tradingFee s3exB.tradingFee
    ∧ arbitrageOpportunities [s3exA, s3exB] [pairBTC] [flatRowA, flatRowB] 0 (-1) = [] := by
  constructor
  · norm_num [profitAfterFeesPct, s3exA, s3exB]
  · norm_num [arbitrageOpportunities, oppCandidates, rowPair, mkOpportunity, sortByProfitDesc,
      insertByProfit, isLatestIn, latestFor, pickLatest, freshRows, isFresh, spreadPct, profitAfterFeesPct,
      matchWindow, s3exA, s3exB, pairBTC, flatRowA, flatRowB]

/-- C3, amended.  For a nonnegative threshold, a positive ask, a
nonnegative bid, nonnegative fees, and a candidate set within the LIMIT
of 50, a qualifying joined combination is emitted iff its
profit_after_fees_pct strictly exceeds the threshold (a profit exactly
equal to the threshold is excluded by the strict comparison).  For
negative thresholds the equivalence fails, as the counterexample
shows. -/
theorem c3_threshold_strict
    (exchanges : List Exchange) (pairs : List TradingPair) (prices : List PriceRow)
    (now : ℤ) (minProfit : ℚ)
    (p1 : PriceRow) (e1 : Exchange) (tp : TradingPair) (p2 : PriceRow) (e2 : Exchange)
    (a b : ℚ)
    (hp1 : p1 ∈ prices) (he1 : e1 ∈ exchanges) (htp : tp ∈ pairs)
    (hp2 : p2 ∈ prices) (he2 : e2 ∈ exchanges)
    (hask : p1.ask = some a) (hbid : p2.bid = some b)
    (hj1 : p1.exchangeId = e1.id) (hj2 : p1.tradingPairId = tp.id)
    (hj3 : p2.tradingPairId = p1.tradingPairId) (hj4 : p2.exchangeId = e2.id)
    (ha1 : e1.isActive = true) (ha2 : e2.isActive = true) (ha3 : tp.isActive = true)
    (hlt : e1.id < e2.id)
    (hf1 : isFresh now matchWindow p1 = true) (hf2 : isFresh now matchWindow p2 = true)
    (hl1 : isLatestIn (freshRows prices now matchWindow) p1 = true)
    (hl2 : isLatestIn (freshRows prices now matchWindow) p2 = true)
    (hthr : 0 ≤ minProfit) (hapos : 0 < a) (hbnn : 0 ≤ b)
    (hbf : 0 ≤ e1.tradingFee) (hsf : 0 ≤ e2.tradingFee)
    (h50 : (oppCandidates exchanges pairs prices now minProfit).length ≤ 50) :
    mkOpportunity now tp e1 e2 p1 p2 a b
        ∈ arbitrageOpportunities exchanges pairs prices now minProfit
      ↔ minProfit < profitAfterFeesPct a b e1.tradingFee e2.tradingFee := by
  constructor
  · intro h
    obtain ⟨q1, f1, tq, q2, f2, a2, b2, _, _, _, _, _, _, _, _, _, _, _, _, _, _, _, _,
      _, _, _, _, hpft, heq⟩ := emittedCombo_of_mem_arbitrage h
    have hfield := congrArg Opportunity.profitAfterFees heq
    simp only [mkOpportunity] at hfield
    rw [hfield]
    exact hpft
  · intro hpft
    have hpos : 0 < profitAfterFeesPct a b e1.tradingFee e2.tradingFee :=
      lt_of_le_of_lt hthr hpft
    have hDpos : 0 < a * (1 + e1.tradingFee) := by
      have h1 : (0 : ℚ) < 1 + e1.tradingFee := by linarith
      exact mul_pos hapos h1
    have hN : 0 < b * (1 - e2.tradingFee) - a * (1 + e1.tradingFee) := by
      by_contra hle
      push_neg at hle
      have hq : (b * (1 - e2.tradingFee) - a * (1 + e1.tradingFee)) / (a * (1 + e1.tradingFee)) ≤ 0 :=
        div_nonpos_iff.mpr (Or.inr ⟨hle, hDpos.le⟩)
      rw [profitAfterFeesPct] at hpos
      nlinarith [hq]
    have hab : a < b := by
      have h2 : b * (1 - e2.tradingFee) ≤ b := by nlinarith [mul_nonneg hbnn hsf]
      have h3 : a ≤ a * (1 + e1.tradingFee) := by nlinarith [mul_nonneg hapos.le hbf]
      linarith
    exact mem_arbitrage_of_emittedCombo h50
      ⟨p1, e1, tp, p2, e2, a, b, hp1, he1, htp, hp2, he2, hask, hbid, hj1, hj2, hj3, hj4,
        ha1, ha2, ha3, hlt, hab, hf1, hf2, hl1, hl2, hpft, rfl⟩

/-- Exchange fixtures of concrete scenario 1: fee 0.001 on the buy side
and 0.005 on the sell side. -/
def feeExA : Exchange :=
  { id := 1, name := "ExchangeA", tradingFee := 1 / 1000, isActive := true }

def feeExB : Exchange :=
  { id := 2, name := "ExchangeB", tradingFee := 5 / 1000, isActive := true }

def scen1RowA : PriceRow :=
  { id := 1, exchangeId := 1, tradingPairId := 1, price := 67000, volume24h := none,
    bid := some 66999, ask := some 67001, timestamp := 0 }

def scen1RowB : PriceRow :=
  { id := 2, exchangeId := 2, tradingPairId := 1, price := 68000, volume24h := none,
    bid := some 67999, ask := some 68001, timestamp := 0 }

/-- C3, witness: the amended equivalence applied to concrete
scenario 1. -/
theorem c3_witness :
    mkOpportunity 0 pairBTC feeExA feeExB scen1RowA scen1RowB 67001 67999
        ∈ arbitrageOpportunities [feeExA, feeExB] [pairBTC] [scen1RowA, scen1RowB] 0 (1 / 10)
      ↔ 1 / 10 < profitAfterFeesPct 67001 67999 feeExA.tradingFee feeExB.tradingFee :=
  c3_threshold_strict [feeExA, feeExB] [pairBTC] [scen1RowA, scen1RowB] 0 (1 / 10)
    scen1RowA feeExA pairBTC scen1RowB feeExB 67001 67999
    (by simp) (by simp) (by simp) (by simp) (by simp)
    rfl rfl rfl rfl rfl rfl rfl rfl rfl (by norm_num [feeExA, feeExB])
    rfl rfl rfl rfl
    (by norm_num) (by norm_num) (by norm_num)
    (by norm_num [feeExA]) (by norm_num [feeExB])
    (by norm_num [oppCandidates, rowPair, mkOpportunity, isLatestIn, latestFor, pickLatest, freshRows,
      isFresh, spreadPct, profitAfterFeesPct, matchWindow, feeExA, feeExB, pairBTC,
      scen1RowA, scen1RowB])

/-! ## C4 -/

/-- C4, confirmed.  Every emitted opportunity reports
spread_percentage = (bid - ask) / ask * 100 and profit_after_fees =
(bid * (1 - sell_fee) - ask * (1 + buy_fee)) / (ask * (1 + buy_fee)) * 100,
with the fees taken from the joined buy and sell exchange rows, in exact
arithmetic; and on concrete scenario 1 (buy fee 0.001, ask 67001; sell
fee 0.005, bid 67999) the computed profit is within 0.02 of 0.90 percent,
exceeds the 0.1 default threshold, the spread is within 0.01 of 1.49
percent, and the pair is returned as the only opportunity. -/
theorem c4_fee_formulas_and_scenario1 :
    (∀ (exchanges : List Exchange) (pairs : List TradingPair) (prices : List PriceRow)
        (now : ℤ) (minProfit : ℚ) (o : Opportunity),
        o ∈ arbitrageOpportunities exchanges pairs prices now minProfit →
          ∃ e1 e2, e1 ∈ exchanges ∧ e2 ∈ exchanges ∧
            o.buyExchangeId = e1.id ∧ o.sellExchangeId = e2.id ∧
            o.buyFee = e1.tradingFee ∧ o.sellFee = e2.tradingFee ∧
            o.spreadPercentage = (o.sellPrice - o.buyPrice) / o.buyPrice * 100 ∧
            o.profitAfterFees =
              (o.sellPrice * (1 - e2.tradingFee) - o.buyPrice * (1 + e1.tradingFee))
                / (o.buyPrice * (1 + e1.tradingFee)) * 100)
    ∧ arbitrageOpportunities [feeExA, feeExB] [pairBTC] [scen1RowA, scen1RowB] 0 (1 / 10)
        = [mkOpportunity 0 pairBTC feeExA feeExB scen1RowA scen1RowB 67001 67999]
    ∧ (9 : ℚ) / 10 - 1 / 50 < profitAfterFeesPct 67001 67999 (1 / 1000) (5 / 1000)
    ∧ profitAfterFeesPct 67001 67999 (1 / 1000) (5 / 1000) < (9 : ℚ) / 10 + 1 / 50
    ∧ (1 : ℚ) / 10 < profitAfterFeesPct 67001 67999 (1 / 1000) (5 / 1000)
    ∧ (149 : ℚ) / 100 - 1 / 100 < spreadPct 67001 67999
    ∧ spreadPct 67001 67999 < (149 : ℚ) / 100 + 1 / 100 := by
  refine ⟨?_, ?_, by norm_num [profitAfterFeesPct], by norm_num [profitAfterFeesPct],
    by norm_num [profitAfterFeesPct], by norm_num [spreadPct], by norm_num [spreadPct]⟩
  · intro exchanges pairs prices now minProfit o h
    obtain ⟨p1, e1, tp, p2, e2, a, b, _, he1, _, _, he2, _, _, _, _, _, _, _, _, _,
      _, _, _, _, _, _, _, rfl⟩ := emittedCombo_of_mem_arbitrage h
    exact ⟨e1, e2, he1, he2, rfl, rfl, rfl, rfl, rfl, rfl⟩
  · norm_num [arbitrageOpportunities, oppCandidates, rowPair, mkOpportunity, sortByProfitDesc,
      insertByProfit, isLatestIn, latestFor, pickLatest, freshRows, isFresh, spreadPct, profitAfterFeesPct,
      matchWindow, feeExA, feeExB, pairBTC, scen1RowA, scen1RowB]

/-! ## C5 -/

/-- Sell-side row of concrete scenario 2, observed at t = 180 while the
buy-side row scen1RowA was observed at t = 0; the query runs at
now = 180, so the buy side is 3 minutes old. -/
def scen2RowB : PriceRow :=
  { id := 2, exchangeId := 2, tradingPairId := 1, price := 68000, volume24h := none,
    bid := some 67999, ask := some 68001, timestamp := 180 }

/-- C5, counterexample.  A quote whose age is exactly the 2-minute
window (observed at t = 0, queried at now = 120) satisfies
now - t <= window, so the spec says the snapshot includes it; the SQL
predicate timestamp > NOW() - INTERVAL is strict, so the snapshot is
empty. -/
theorem c5_counterexample :
    (120 : ℤ) - flatRowA.timestamp ≤ matchWindow
    ∧ freshRows [flatRowA] 120 matchWindow = [] := by
  exact ⟨by decide, rfl⟩

/-- C5, amended.  A price row is in the freshness-filtered snapshot iff
it is in the table and now - observed_at is strictly less than the
window; a quote aged exactly the window is excluded.  And in concrete
scenario 2 (buy-side quote 3 minutes old, sell side fresh) the matcher
returns no opportunity even though the sell side alone is fresh. -/
theorem c5_freshness_strict :
    (∀ (prices : List PriceRow) (now w : ℤ) (p : PriceRow),
        p ∈ freshRows prices now w ↔ p ∈ prices ∧ now - p.timestamp < w)
    ∧ arbitrageOpportunities [feeExA, feeExB] [pairBTC] [scen1RowA, scen2RowB] 180 (1 / 10)
        = [] := by
  constructor
  · intro prices now w p
    rw [freshRows, List.mem_filter]
    simp only [isFresh, decide_eq_true_eq]
    constructor
    · rintro ⟨h1, h2⟩
      exact ⟨h1, by omega⟩
    · rintro ⟨h1, h2⟩
      exact ⟨h1, by omega⟩
  · norm_num [arbitrageOpportunities, oppCandidates, rowPair, mkOpportunity, sortByProfitDesc,
      insertByProfit, isLatestIn, latestFor, pickLatest, freshRows, isFresh, spreadPct, profitAfterFeesPct,
      matchWindow, feeExA, feeExB, pairBTC, scen1RowA, scen2RowB]

/-! ## C10 -/

/-- Sell-side exchange with fee 0.2, tuned so that buying at ask 1000
with zero fee and selling at bid 1250 nets a profit of exactly 0. -/
def beExB : Exchange := { id := 2, name := "B5", tradingFee := 1 / 5, isActive := true }

def beRowA : PriceRow :=
  { id := 1, exchangeId := 1, tradingPairId := 1, price := 1000, volume24h := none,
    bid := some 999, ask := some 1000, timestamp := 0 }

def beRowB : PriceRow :=
  { id := 2, exchangeId := 2, tradingPairId := 1, price := 1250, volume24h := none,
    bid := some 1250, ask := some 1251, timestamp := 0 }

/-- C10, counterexample.  The claim concludes that a caller can never
get break-even (zero-profit) opportunities included.  But only NaN and 0
fall back to the 0.1 default: minProfit=-1 parses to -1, is truthy, and
is used as the threshold, and a combination with profit exactly 0 is
then emitted. -/
theorem c10_counterexample :
    effectiveMinProfit (some (-1)) = -1
    ∧ profitAfterFeesPct 1000 1250 s3exA.tradingFee beExB.tradingFee = 0
    ∧ mkOpportunity 0 pairBTC s3exA beExB beRowA beRowB 1000 1250
        ∈ arbitrageOpportunities [s3exA, beExB] [pairBTC] [beRowA, beRowB] 0
            (effectiveMinProfit (some (-1))) := by
  refine ⟨by norm_num [effectiveMinProfit], by norm_num [profitAfterFeesPct, s3exA, beExB], ?_⟩
  norm_num [arbitrageOpportunities, oppCandidates, rowPair, mkOpportunity, sortByProfitDesc,
    insertByProfit, isLatestIn, latestFor, pickLatest, freshRows, isFresh, spreadPct, profitAfterFeesPct,
    matchWindow, effectiveMinProfit, s3exA, beExB, pairBTC, beRowA, beRowB]

/-- C10, amended.  A minProfit that is missing, non-numeric, or parses
to 0 is replaced by the default 0.1, and the effective threshold is
never exactly 0; but every other numeric value — negative values
included — is used unchanged, so a caller can still have break-even
opportunities included by passing a negative minProfit. -/
theorem c10_min_profit_default :
    (∀ v : Option ℚ, effectiveMinProfit v ≠ 0)
    ∧ effectiveMinProfit none = 1 / 10
    ∧ effectiveMinProfit (some 0) = 1 / 10
    ∧ (∀ x : ℚ, x ≠ 0 → effectiveMinProfit (some x) = x) := by
  refine ⟨?_, rfl, by norm_num [effectiveMinProfit], ?_⟩
  · intro v
    cases v with
    | none => norm_num [effectiveMinProfit]
    | some x =>
      by_cases hx : x = 0
      · subst hx
        norm_num [effectiveMinProfit]
      · simp [effectiveMinProfit, hx]
  · intro x hx
    simp [effectiveMinProfit, hx]

/-! ## Quote store: Database.insertPrice -/

/-- The argument record of Database.insertPrice. -/
structure InsertData where
  exchangeId : Nat
  tradingPairId : Nat
  price : ℚ
  volume24h : Option ℚ
  bid : Option ℚ
  ask : Option ℚ
  deriving DecidableEq

/-- The JS coalescing data.bid || null used when binding the insert
values: a missing value stays null, and 0 is falsy so it becomes null
too. -/
def jsOrNull (v : Option ℚ) : Option ℚ :=
  match v with
  | some x => if x = 0 then none else some x
  | none => none

/-- The prices table together with the id sequence backing the id
column. -/
structure PricesTable where
  rows : List PriceRow
  nextId : Nat
  deriving DecidableEq

def emptyTable : PricesTable := { rows := [], nextId := 1 }

/-- The ON CONFLICT key of the insert: (exchange_id, trading_pair_id,
timestamp). -/
def sameKeyTs (d : InsertData) (ts : ℤ) (r : PriceRow) : Bool :=
  decide (r.exchangeId = d.exchangeId ∧ r.tradingPairId = d.tradingPairId ∧ r.timestamp = ts)

/-- DO UPDATE SET price, volume_24h, bid, ask = EXCLUDED...: keys, id
and timestamp are kept, the data columns are overwritten. -/
def applyConflictUpdate (d : InsertData) (r : PriceRow) : PriceRow :=
  { r with
    price := d.price
    volume24h := jsOrNull d.volume24h
    bid := jsOrNull d.bid
    ask := jsOrNull d.ask }

/-- A freshly inserted row; timestamp is NOW() of the statement, passed
explicitly. -/
def newRow (rid : Nat) (d : InsertData) (ts : ℤ) : PriceRow :=
  { id := rid
    exchangeId := d.exchangeId
    tradingPairId := d.tradingPairId
    price := d.price
    volume24h := jsOrNull d.volume24h
    bid := jsOrNull d.bid
    ask := jsOrNull d.ask
    timestamp := ts }

/-- Database.insertPrice: INSERT ... ON CONFLICT (exchange_id,
trading_pair_id, timestamp) DO UPDATE SET ... . -/
def insertPrice (t : PricesTable) (d : InsertData) (ts : ℤ) : PricesTable :=
  if t.rows.any (sameKeyTs d ts) then
    { rows := t.rows.map fun r => if sameKeyTs d ts r then applyConflictUpdate d r else r,
      nextId := t.nextId }
  else
    { rows := t.rows ++ [newRow t.nextId d ts], nextId := t.nextId + 1 }

/-- A sequence of insertPrice calls, applied in order; the timestamp of
each call is the NOW() of its statement. -/
def applyInserts : PricesTable → List (InsertData × ℤ) → PricesTable
  | t, [] => t
  | t, op :: ops => applyInserts (insertPrice t op.1 op.2) ops

/-- The last upsert of the sequence for a given (exchange, trading-pair)
key, if any. -/
def lastUpsert : List (InsertData × ℤ) → Nat → Nat → Option (InsertData × ℤ)
  | [], _, _ => none
  | op :: ops, ex, tp =>
      match lastUpsert ops ex tp with
      | some o => some o
      | none =>
          if op.1.exchangeId = ex ∧ op.1.tradingPairId = tp then some op else none

/-- The matching-relevant content of a stored row: everything except the
synthetic id column. -/
def quoteView (r : PriceRow) : Nat × Nat × ℚ × Option ℚ × Option ℚ × Option ℚ × ℤ :=
  (r.exchangeId, r.tradingPairId, r.price, r.volume24h, r.bid, r.ask, r.timestamp)

/-- The row content an upsert is expected to leave behind. -/
def upsertView (d : InsertData) (ts : ℤ) : Nat × Nat × ℚ × Option ℚ × Option ℚ × Option ℚ × ℤ :=
  (d.exchangeId, d.tradingPairId, d.price, jsOrNull d.volume24h, jsOrNull d.bid,
    jsOrNull d.ask, ts)

theorem latestFor_eq_none {rows : List PriceRow} {ex tp : Nat}
    (h : latestFor rows ex tp = none) :
    ∀ r ∈ rows, r.exchangeId = ex → r.tradingPairId = tp → False := by
  induction rows with
  | nil => intro r hr; exact absurd hr (List.not_mem_nil r)
  | cons p rs ih =>
    rw [latestFor] at h
    split_ifs at h with hp
    · cases hrec : latestFor rs ex tp with
      | none => rw [hrec] at h; simp [pickLatest] at h
      | some q =>
        rw [hrec] at h
        simp only [pickLatest] at h
        split_ifs at h
    · intro r hr h1 h2
      rcases List.mem_cons.mp hr with rfl | hr2
      · exact hp ⟨h1, h2⟩
      · exact ih h r hr2 h1 h2

theorem latestFor_isSome {rows : List PriceRow} {ex tp : Nat} {r : PriceRow}
    (hr : r ∈ rows) (h1 : r.exchangeId = ex) (h2 : r.tradingPairId = tp) :
    ∃ q, latestFor rows ex tp = some q := by
  cases hq : latestFor rows ex tp with
  | some q => exact ⟨q, rfl⟩
  | none => exact absurd (latestFor_eq_none hq r hr h1 h2) (by simp)

theorem latestFor_mem {rows : List PriceRow} {ex tp : Nat} {q : PriceRow}
    (h : latestFor rows ex tp = some q) :
    q ∈ rows ∧ q.exchangeId = ex ∧ q.tradingPairId = tp := by
  induction rows generalizing q with
  | nil => exact absurd h (by simp [latestFor])
  | cons p rs ih =>
    rw [latestFor] at h
    split_ifs at h with hp
    · cases hrec : latestFor rs ex tp with
      | none =>
        rw [hrec] at h
        simp only [pickLatest] at h
        obtain rfl : p = q := by simpa using h
        exact ⟨List.mem_cons_self p rs, hp.1, hp.2⟩
      | some q0 =>
        rw [hrec] at h
        simp only [pickLatest] at h
        split_ifs at h with hts
        · obtain rfl : p = q := by simpa using h
          exact ⟨List.mem_cons_self p rs, hp.1, hp.2⟩
        · obtain rfl : q0 = q := by simpa using h
          obtain ⟨hm, k1, k2⟩ := ih hrec
          exact ⟨List.mem_cons_of_mem p hm, k1, k2⟩
    · obtain ⟨hm, k1, k2⟩ := ih h
      exact ⟨List.mem_cons_of_mem p hm, k1, k2⟩

theorem latestFor_isMax {rows : List PriceRow} {ex tp : Nat} {q : PriceRow}
    (h : latestFor rows ex tp = some q) :
    ∀ r ∈ rows, r.exchangeId = ex → r.tradingPairId = tp →
      r.timestamp ≤ q.timestamp := by
  induction rows generalizing q with
  | nil => intro r hr; exact absurd hr (List.not_mem_nil r)
  | cons p rs ih =>
    rw [latestFor] at h
    split_ifs at h with hp
    · cases hrec : latestFor rs ex tp with
      | none =>
        rw [hrec] at h
        simp only [pickLatest] at h
        obtain rfl : p = q := by simpa using h
        intro r hr h1 h2
        rcases List.mem_cons.mp hr with rfl | hr2
        · exact le_refl _
        · exact absurd (latestFor_eq_none hrec r hr2 h1 h2) (by simp)
      | some q0 =>
        rw [hrec] at h
        simp only [pickLatest] at h
        split_ifs at h with hts
        · obtain rfl : p = q := by simpa using h
          intro r hr h1 h2
          rcases List.mem_cons.mp hr with rfl | hr2
          · exact le_refl _
          · exact le_trans (ih hrec r hr2 h1 h2) hts
        · obtain rfl : q0 = q := by simpa using h
          intro r hr h1 h2
          rcases List.mem_cons.mp hr with rfl | hr2
          · exact le_of_lt (lt_of_not_le hts)
          · exact ih hrec r hr2 h1 h2
    · intro r hr h1 h2
      rcases List.mem_cons.mp hr with rfl | hr2
      · exact absurd ⟨h1, h2⟩ hp
      · exact ih h r hr2 h1 h2

theorem latestFor_map_eq {rows : List PriceRow} {ex tp : Nat} (f : PriceRow → PriceRow)
    (hkey : ∀ r, (f r).exchangeId = r.exchangeId ∧ (f r).tradingPairId = r.tradingPairId)
    (hfix : ∀ r, r.exchangeId = ex → r.tradingPairId = tp → f r = r) :
    latestFor (rows.map f) ex tp = latestFor rows ex tp := by
  induction rows with
  | nil => rfl
  | cons p rs ih =>
    rw [List.map_cons]
    simp only [latestFor]
    rw [(hkey p).1, (hkey p).2, ih]
    by_cases hp : p.exchangeId = ex ∧ p.tradingPairId = tp
    · rw [hfix p hp.1 hp.2]
    · rw [if_neg hp, if_neg hp]

theorem latestFor_append_nonkey {rows : List PriceRow} {ex tp : Nat} {q : PriceRow}
    (h : ¬(q.exchangeId = ex ∧ q.tradingPairId = tp)) :
    latestFor (rows ++ [q]) ex tp = latestFor rows ex tp := by
  induction rows with
  | nil => simp [latestFor, h]
  | cons p rs ih =>
    rw [List.cons_append]
    simp only [latestFor]
    rw [ih]

theorem insertPrice_timestamp_le {t : PricesTable} {d : InsertData} {ts : ℤ}
    (hb : ∀ r ∈ t.rows, r.timestamp ≤ ts) :
    ∀ r ∈ (insertPrice t d ts).rows, r.timestamp ≤ ts := by
  intro r hr
  unfold insertPrice at hr
  split_ifs at hr with hc
  · simp only at hr
    obtain ⟨s, hs, rfl⟩ := List.mem_map.mp hr
    by_cases hsk : sameKeyTs d ts s = true
    · rw [if_pos hsk]
      exact hb s hs
    · rw [if_neg hsk]
      exact hb s hs
  · simp only at hr
    rcases List.mem_append.mp hr with hr2 | hr2
    · exact hb r hr2
    · obtain rfl : r = newRow t.nextId d ts := by simpa using hr2
      exact le_refl _

theorem latestFor_insertPrice_self {t : PricesTable} {d : InsertData} {ts : ℤ}
    (hb : ∀ r ∈ t.rows, r.timestamp ≤ ts) :
    Option.map quoteView (latestFor (insertPrice t d ts).rows d.exchangeId d.tradingPairId)
      = some (upsertView d ts) := by
  unfold insertPrice
  split_ifs with hc
  · simp only
    obtain ⟨r0, hr0, hkts⟩ := List.any_eq_true.mp hc
    have hk : r0.exchangeId = d.exchangeId ∧ r0.tradingPairId = d.tradingPairId
        ∧ r0.timestamp = ts := by simpa [sameKeyTs] using hkts
    have hmem : applyConflictUpdate d r0
        ∈ t.rows.map fun r => if sameKeyTs d ts r then applyConflictUpdate d r else r := by
      have heq : (if sameKeyTs d ts r0 then applyConflictUpdate d r0 else r0)
          = applyConflictUpdate d r0 := if_pos hkts
      rw [← heq]
      exact List.mem_map_of_mem _ hr0
    have hex : (applyConflictUpdate d r0).exchangeId = d.exchangeId := hk.1
    have htp : (applyConflictUpdate d r0).tradingPairId = d.tradingPairId := hk.2.1
    obtain ⟨q, hq⟩ := latestFor_isSome hmem hex htp
    rw [hq]
    obtain ⟨hqmem, hqex, hqtp⟩ := latestFor_mem hq
    obtain ⟨s, hs, hfs⟩ := List.mem_map.mp hqmem
    have hqts_ge : ts ≤ q.timestamp := by
      have h1 := latestFor_isMax hq (applyConflictUpdate d r0) hmem hex htp
      have h2 : (applyConflictUpdate d r0).timestamp = ts := hk.2.2
      rw [h2] at h1
      exact h1
    have hqts_le : q.timestamp ≤ ts := by
      by_cases hsk : sameKeyTs d ts s = true
      · rw [if_pos hsk] at hfs
        rw [← hfs]
        exact hb s hs
      · rw [if_neg hsk] at hfs
        rw [← hfs]
        exact hb s hs
    have hqts : q.timestamp = ts := le_antisymm hqts_le hqts_ge
    by_cases hsk : sameKeyTs d ts s = true
    · have hsk2 : s.exchangeId = d.exchangeId ∧ s.tradingPairId = d.tradingPairId
          ∧ s.timestamp = ts := by simpa [sameKeyTs] using hsk
      rw [if_pos hsk] at hfs
      rw [← hfs]
      simp [quoteView, upsertView, applyConflictUpdate, hsk2.1, hsk2.2.1, hsk2.2.2]
    · exfalso
      rw [if_neg hsk] at hfs
      apply hsk
      subst hfs
      simp only [sameKeyTs, decide_eq_true_eq]
      exact ⟨hqex, hqtp, hqts⟩
  · simp only
    have hnew_mem : newRow t.nextId d ts ∈ t.rows ++ [newRow t.nextId d ts] :=
      List.mem_append_right _ (List.mem_singleton_self _)
    have hex : (newRow t.nextId d ts).exchangeId = d.exchangeId := rfl
    have htp : (newRow t.nextId d ts).tradingPairId = d.tradingPairId := rfl
    obtain ⟨q, hq⟩ := latestFor_isSome hnew_mem hex htp
    rw [hq]
    obtain ⟨hqmem, hqex, hqtp⟩ := latestFor_mem hq
    have hge : ts ≤ q.timestamp := latestFor_isMax hq _ hnew_mem hex htp
    rcases List.mem_append.mp hqmem with hqold | hqnew
    · exfalso
      have hle : q.timestamp ≤ ts := hb q hqold
      have hts : q.timestamp = ts := le_antisymm hle hge
      have hany : t.rows.any (sameKeyTs d ts) = true :=
        List.any_eq_true.mpr ⟨q, hqold, by
          simp only [sameKeyTs, decide_eq_true_eq]
          exact ⟨hqex, hqtp, hts⟩⟩
      exact hc hany
    · obtain rfl : q = newRow t.nextId d ts := by simpa using hqnew
      rfl

theorem latestFor_insertPrice_other {t : PricesTable} {d : InsertData} {ts : ℤ}
    {ex tp : Nat} (h : ¬(d.exchangeId = ex ∧ d.tradingPairId = tp)) :
    latestFor (insertPrice t d ts).rows ex tp = latestFor t.rows ex tp := by
  unfold insertPrice
  split_ifs with hc
  · simp only
    apply latestFor_map_eq
    · intro r
      by_cases hr : sameKeyTs d ts r = true
      · rw [if_pos hr]
        exact ⟨rfl, rfl⟩
      · rw [if_neg hr]
        exact ⟨rfl, rfl⟩
    · intro r h1 h2
      have hr : sameKeyTs d ts r = false := by
        by_contra hcon
        have hr2 : sameKeyTs d ts r = true := by
          cases hx : sameKeyTs d ts r
          · exact absurd hx hcon
          · rfl
        have hk : r.exchangeId = d.exchangeId ∧ r.tradingPairId = d.tradingPairId
            ∧ r.timestamp = ts := by simpa [sameKeyTs] using hr2
        exact h ⟨by rw [← hk.1, h1], by rw [← hk.2.1, h2]⟩
      rw [hr]
      simp
  · simp only
    exact latestFor_append_nonkey (by simpa [newRow] using h)

theorem applyInserts_latest_general (ops : List (InsertData × ℤ)) :
    ∀ t : PricesTable,
      (∀ r ∈ t.rows, ∀ op ∈ ops, r.timestamp ≤ op.2) →
      List.Pairwise (fun x y : InsertData × ℤ => x.2 ≤ y.2) ops →
      ∀ ex tp : Nat,
        Option.map quoteView (latestFor (applyInserts t ops).rows ex tp) =
          match lastUpsert ops ex tp with
          | some op => some (upsertView op.1 op.2)
          | none => Option.map quoteView (latestFor t.rows ex tp) := by
  induction ops with
  | nil => intro t hb hpw ex tp; rfl
  | cons op ops ih =>
    intro t hb hpw ex tp
    have hstep : applyInserts t (op :: ops) = applyInserts (insertPrice t op.1 op.2) ops := rfl
    have hb0 : ∀ r ∈ t.rows, r.timestamp ≤ op.2 := by
      intro r hr
      exact hb r hr op (List.mem_cons_self op ops)
    have hpw2 := List.pairwise_cons.mp hpw
    have hb2 : ∀ r ∈ (insertPrice t op.1 op.2).rows, ∀ op2 ∈ ops, r.timestamp ≤ op2.2 := by
      intro r hr op2 hop2
      exact le_trans (insertPrice_timestamp_le hb0 r hr) (hpw2.1 op2 hop2)
    have hIH := ih (insertPrice t op.1 op.2) hb2 hpw2.2 ex tp
    rw [hstep, hIH]
    cases hLU : lastUpsert ops ex tp with
    | some o =>
      have hLU2 : lastUpsert (op :: ops) ex tp = some o := by
        rw [lastUpsert, hLU]
      rw [hLU2]
    | none =>
      by_cases hk : op.1.exchangeId = ex ∧ op.1.tradingPairId = tp
      · have hLU2 : lastUpsert (op :: ops) ex tp = some op := by
          rw [lastUpsert, hLU]
          simp [hk]
        rw [hLU2]
        obtain ⟨hk1, hk2⟩ := hk
        rw [← hk1, ← hk2]
        exact latestFor_insertPrice_self hb0
      · have hLU2 : lastUpsert (op :: ops) ex tp = none := by
          rw [lastUpsert, hLU]
          simp [hk]
        rw [hLU2]
        rw [latestFor_insertPrice_other hk]

/-! ## C6 -/

/-- C6, confirmed.  Whenever the timestamps of a sequence of insertPrice
calls are nondecreasing (NOW() of successive completed statements), the
latest-per-key view the matcher reads (SELECT DISTINCT ON (exchange_id,
trading_pair_id) ... ORDER BY timestamp DESC) holds, for every
(exchange, trading-pair) key, exactly the content of the most recent
upsert for that key — and nothing for keys never upserted.  New
observations for a key overwrite the view entry rather than adding to
it (the table itself retains history rows; an equal-timestamp collision
is overwritten in place by ON CONFLICT DO UPDATE). -/
theorem c6_latest_per_key (ops : List (InsertData × ℤ))
    (hmono : List.Pairwise (fun x y : InsertData × ℤ => x.2 ≤ y.2) ops)
    (ex tp : Nat) :
    Option.map quoteView (latestFor (applyInserts emptyTable ops).rows ex tp)
      = Option.map (fun op : InsertData × ℤ => upsertView op.1 op.2)
          (lastUpsert ops ex tp) := by
  have h := applyInserts_latest_general ops emptyTable
    (by intro r hr; simp [emptyTable] at hr) hmono ex tp
  rw [h]
  cases hLU : lastUpsert ops ex tp with
  | some o => rfl
  | none => rfl

def c6opA1 : InsertData :=
  { exchangeId := 1, tradingPairId := 1, price := 100, volume24h := some 5,
    bid := some 99, ask := some 101 }

def c6opA2 : InsertData :=
  { exchangeId := 1, tradingPairId := 1, price := 110, volume24h := some 6,
    bid := some 109, ask := some 111 }

def c6opB1 : InsertData :=
  { exchangeId := 2, tradingPairId := 1, price := 105, volume24h := none,
    bid := some 104, ask := some 106 }

/-- Three upserts: two for key (1,1) at t = 10 and t = 20, one for key
(2,1) in between. -/
def c6ops : List (InsertData × ℤ) := [(c6opA1, 10), (c6opB1, 15), (c6opA2, 20)]

/-- C6, witness: the latest-per-key view after the concrete upsert
sequence equals the last upsert of key (1,1), namely (c6opA2, 20). -/
theorem c6_witness :
    Option.map quoteView (latestFor (applyInserts emptyTable c6ops).rows 1 1)
      = Option.map (fun op : InsertData × ℤ => upsertView op.1 op.2)
          (lastUpsert c6ops 1 1)
    ∧ lastUpsert c6ops 1 1 = some (c6opA2, 20) :=
  ⟨c6_latest_per_key c6ops (by decide) 1 1, rfl⟩

/-! ## Connector lifecycle: connect / close handler / scheduleReconnect /
disconnect -/

/-- Runtime state of one connector plus its transport.  socketAttached
records that a WebSocket object with the registered close handler still
exists (the handler stays attached even after the field this.ws is
nulled); wsField is this.ws != null; reconnectPending is
this.reconnectTimeout != null; stopRequested is a ghost flag set by
disconnect(); connectCount counts executions of connect(). -/
structure ConnState where
  socketAttached : Bool
  wsField : Bool
  reconnectPending : Bool
  stopRequested : Bool
  connectCount : Nat
  deriving DecidableEq

def connInit : ConnState :=
  { socketAttached := false
    wsField := false
    reconnectPending := false
    stopRequested := false
    connectCount := 0 }

/-- Events driving a connector: an external connect() call, the
transport close event being delivered to the registered handler, the
5-second reconnect timer firing, and an external disconnect() call. -/
inductive ConnEvent
  | startConnect
  | socketClosed
  | reconnectTimerFires
  | stopRequest
  deriving DecidableEq

/-- connect(): builds a new socket and registers its handlers. -/
def connectAction (s : ConnState) : ConnState :=
  { s with
    socketAttached := true
    wsField := true
    connectCount := s.connectCount + 1 }

/-- One step of the connector lifecycle; none means the event cannot
occur in that state (no close event without a live socket, no timer
firing without a scheduled timer).  The socketClosed branch is the close
handler: it unconditionally calls scheduleReconnect(), which replaces
any pending timer with a fresh 5-second one — there is no shutdown flag
consulted anywhere.  The stopRequest branch is disconnect(): it clears
the pending reconnect timer, calls close() on the socket (which will
deliver a close event to the still-registered handler later) and nulls
this.ws. -/
def connStep (s : ConnState) : ConnEvent → Option ConnState
  | ConnEvent.startConnect => some (connectAction s)
  | ConnEvent.socketClosed =>
      if s.socketAttached then
        some { s with
          socketAttached := false
          reconnectPending := true }
      else none
  | ConnEvent.reconnectTimerFires =>
      if s.reconnectPending then
        some (connectAction { s with reconnectPending := false })
      else none
  | ConnEvent.stopRequest =>
      some { s with
        reconnectPending := false
        wsField := false
        stopRequested := true }

def runConn : ConnState → List ConnEvent → Option ConnState
  | s, [] => some s
  | s, e :: es =>
      match connStep s e with
      | some s2 => runConn s2 es
      | none => none

/-! ## C7 -/

/-- C7: the code contradicts the claim.  After connect() and an explicit
disconnect(), the socket close event that disconnect() itself provokes
is delivered to the close handler, which unconditionally schedules a new
5-second reconnect (reconnectPending becomes true again after the stop
request), and when that timer fires the connector reconnects
(connectCount reaches 2 with stopRequested still true).  So the state
after a stop request is not terminal. -/
theorem c7_reconnect_after_disconnect :
    runConn connInit
        [ConnEvent.startConnect, ConnEvent.stopRequest, ConnEvent.socketClosed]
      = some { socketAttached := false
               wsField := false
               reconnectPending := true
               stopRequested := true
               connectCount := 1 }
    ∧ runConn connInit
        [ConnEvent.startConnect, ConnEvent.stopRequest, ConnEvent.socketClosed,
          ConnEvent.reconnectTimerFires]
      = some { socketAttached := true
               wsField := true
               reconnectPending := false
               stopRequested := true
               connectCount := 2 } :=
  ⟨rfl, rfl⟩

/-! ## Reference-data lookups and connector initialization -/

/-- Database.getExchangeId: SELECT id FROM exchanges WHERE name = $1,
first matching row or null. -/
def getExchangeId (exchanges : List Exchange) (name : String) : Option Nat :=
  Option.map Exchange.id (exchanges.find? fun e => e.name == name)

/-- Database.getTradingPairId: SELECT id FROM trading_pairs WHERE
symbol = $1, first matching row or null. -/
def getTradingPairId (pairs : List TradingPair) (symbol : String) : Option Nat :=
  Option.map TradingPair.id (pairs.find? fun tp => tp.symbol == symbol)

/-- JS truthiness of a number|null id as used in
if (!this.exchangeId) and if (!tradingPairId): null and 0 are falsy. -/
def jsFalsyId (v : Option Nat) : Bool :=
  match v with
  | none => true
  | some n => n == 0

def listStartsWith : List Char → List Char → Bool
  | [], _ => true
  | _ :: _, [] => false
  | p :: ps, c :: cs => p == c && listStartsWith ps cs

def replaceFirstAux (pat repl : List Char) : List Char → List Char
  | [] => []
  | c :: cs =>
      if listStartsWith pat (c :: cs) then repl ++ (c :: cs).drop pat.length
      else c :: replaceFirstAux pat repl cs

/-- JS String.prototype.replace with a string pattern: replaces the
first occurrence only. -/
def replaceFirst (s pat repl : String) : String :=
  String.mk (replaceFirstAux pat.data repl.data s.data)

/-- BinanceConnector.convertSymbolToTradingPair:
symbol.slice(0, -4) + underscore + symbol.slice(-4). -/
def binanceConvertSymbolToTradingPair (symbol : String) : String :=
  symbol.take (symbol.length - 4) ++ "_" ++ symbol.drop (symbol.length - 4)

/-- CoinbaseConnector.convertProductIdToTradingPair:
productId.replace(hyphen, underscore). -/
def coinbaseConvertProductIdToTradingPair (productId : String) : String :=
  replaceFirst productId "-" "_"

/-- KrakenConnector.convertPairToTradingPair:
pair.replace(XBT, BTC).replace(slash, underscore). -/
def krakenConvertPairToTradingPair (pair : String) : String :=
  replaceFirst (replaceFirst pair "XBT" "BTC") "/" "_"

/-- The symbol-check loop of BinanceConnector.initialize: throws at the
first configured symbol whose resolved trading pair is not found. -/
def binanceCheckPairs (pairs : List TradingPair) : List String → Except String Unit
  | [] => Except.ok ()
  | s :: rest =>
      if jsFalsyId (getTradingPairId pairs (binanceConvertSymbolToTradingPair s)) then
        Except.error ("Trading pair " ++ binanceConvertSymbolToTradingPair s
          ++ " not found for symbol " ++ s)
      else binanceCheckPairs pairs rest

/-- BinanceConnector.initialize: resolves the exchange id (throwing when
absent) and then checks every configured symbol against reference
data. -/
def binanceInitialize (exchanges : List Exchange) (pairs : List TradingPair)
    (symbols : List String) : Except String Nat :=
  match getExchangeId exchanges "Binance" with
  | none => Except.error "Binance exchange not found"
  | some exId =>
      if exId = 0 then Except.error "Binance exchange not found"
      else
        match binanceCheckPairs pairs symbols with
        | Except.error msg => Except.error msg
        | Except.ok _ => Except.ok exId

/-- CoinbaseConnector.initialize: resolves only the exchange id; the
configured product ids are not checked at startup. -/
def coinbaseInitialize (exchanges : List Exchange) : Except String Nat :=
  match getExchangeId exchanges "Coinbase" with
  | none => Except.error "Coinbase exchange not found in database"
  | some exId =>
      if exId = 0 then Except.error "Coinbase exchange not found in database"
      else Except.ok exId

/-- KrakenConnector.initialize: resolves only the exchange id; the
configured pairs are not checked at startup. -/
def krakenInitialize (exchanges : List Exchange) : Except String Nat :=
  match getExchangeId exchanges "Kraken" with
  | none => Except.error "Kraken exchange not found in database"
  | some exId =>
      if exId = 0 then Except.error "Kraken exchange not found in database"
      else Except.ok exId

def binanceSymbols : List String := ["BTCUSDT", "ETHUSDT"]

def coinbaseProductIds : List String := ["BTC-USD", "ETH-USD"]

def krakenConfiguredPairs : List String := ["XBT/USD", "ETH/USD"]

inductive StartOutcome
  | running
  | exited
  deriving DecidableEq

def initFailed (r : Except String Nat) : Bool :=
  match r with
  | Except.error _ => true
  | Except.ok _ => false

/-- PricePollerService.start: initializes binance, coinbase and kraken
in order; any thrown error is caught and the process exits. -/
def serviceStart (exchanges : List Exchange) (pairs : List TradingPair) : StartOutcome :=
  if initFailed (binanceInitialize exchanges pairs binanceSymbols) then StartOutcome.exited
  else if initFailed (coinbaseInitialize exchanges) then StartOutcome.exited
  else if initFailed (krakenInitialize exchanges) then StartOutcome.exited
  else StartOutcome.running

/-! ## C8 -/

def cbOnlyExchange : Exchange :=
  { id := 2, name := "Coinbase", tradingFee := 0, isActive := true }

def krOnlyExchange : Exchange :=
  { id := 3, name := "Kraken", tradingFee := 0, isActive := true }

/-- C8, counterexample.  With the Coinbase exchange row present but an
empty trading_pairs table (so the required pair BTC_USD is absent),
CoinbaseConnector.initialize succeeds rather than throwing; likewise for
Kraken.  Only Binance checks its trading pairs at startup. -/
theorem c8_counterexample :
    coinbaseInitialize [cbOnlyExchange] = Except.ok 2
    ∧ krakenInitialize [krOnlyExchange] = Except.ok 3
    ∧ getTradingPairId ([] : List TradingPair) "BTC_USD" = none := by
  exact ⟨rfl, rfl, rfl⟩

theorem binanceCheckPairs_error_iff (pairs : List TradingPair) (symbols : List String) :
    (∃ msg, binanceCheckPairs pairs symbols = Except.error msg) ↔
      ∃ s ∈ symbols,
        jsFalsyId (getTradingPairId pairs (binanceConvertSymbolToTradingPair s)) = true := by
  induction symbols with
  | nil => simp [binanceCheckPairs]
  | cons s rest ih =>
    rw [binanceCheckPairs]
    split_ifs with hs
    · simp only [List.mem_cons]
      constructor
      · intro _
        exact ⟨s, Or.inl rfl, hs⟩
      · intro _
        exact ⟨_, rfl⟩
    · simp only [List.mem_cons, ih]
      constructor
      · rintro ⟨s2, hs2, hfal⟩
        exact ⟨s2, Or.inr hs2, hfal⟩
      · rintro ⟨s2, hs2 | hs2, hfal⟩
        · subst hs2
          exact absurd hfal (by simp [hs])
        · exact ⟨s2, hs2, hfal⟩

/-- C8, amended.  BinanceConnector.initialize does fail exactly when its
exchange row is absent (or has a falsy id) or some configured symbol has
no trading pair in reference data; but CoinbaseConnector.initialize and
KrakenConnector.initialize fail exactly when their exchange row is
absent — they perform no trading-pair check at startup, so a missing
required pair does not stop them.  In every case a failing initialize
makes PricePollerService.start exit instead of running. -/
theorem c8_fail_fast
    : (∀ (exchanges : List Exchange) (pairs : List TradingPair) (symbols : List String),
        initFailed (binanceInitialize exchanges pairs symbols) = true ↔
          (jsFalsyId (getExchangeId exchanges "Binance") = true
            ∨ ∃ s ∈ symbols,
                jsFalsyId (getTradingPairId pairs (binanceConvertSymbolToTradingPair s)) = true))
    ∧ (∀ exchanges : List Exchange,
        initFailed (coinbaseInitialize exchanges) = true ↔
          jsFalsyId (getExchangeId exchanges "Coinbase") = true)
    ∧ (∀ exchanges : List Exchange,
        initFailed (krakenInitialize exchanges) = true ↔
          jsFalsyId (getExchangeId exchanges "Kraken") = true)
    ∧ (∀ (exchanges : List Exchange) (pairs : List TradingPair),
        serviceStart exchanges pairs = StartOutcome.exited ↔
          (initFailed (binanceInitialize exchanges pairs binanceSymbols) = true
            ∨ initFailed (coinbaseInitialize exchanges) = true
            ∨ initFailed (krakenInitialize exchanges) = true)) := by
  refine ⟨?_, ?_, ?_, ?_⟩
  · intro exchanges pairs symbols
    cases hx : getExchangeId exchanges "Binance" with
    | none => simp [binanceInitialize, hx, initFailed, jsFalsyId]
    | some exId =>
      by_cases h0 : exId = 0
      · subst h0
        simp [binanceInitialize, hx, initFailed, jsFalsyId]
      · cases hcp : binanceCheckPairs pairs symbols with
        | error msg =>
          have hiff := (binanceCheckPairs_error_iff pairs symbols).mp ⟨msg, hcp⟩
          simp [binanceInitialize, hx, hcp, initFailed, h0, hiff]
        | ok u =>
          have hiff : ¬∃ s ∈ symbols,
              jsFalsyId (getTradingPairId pairs (binanceConvertSymbolToTradingPair s)) = true := by
            intro hcon
            obtain ⟨msg, hmsg⟩ := (binanceCheckPairs_error_iff pairs symbols).mpr hcon
            rw [hcp] at hmsg
            exact absurd hmsg (by simp)
          have hfal : jsFalsyId (some exId) = false := by simp [jsFalsyId, h0]
          simp [binanceInitialize, hx, hcp, initFailed, h0, hiff, hfal]
  · intro exchanges
    cases hx : getExchangeId exchanges "Coinbase" with
    | none => simp [coinbaseInitialize, hx, initFailed, jsFalsyId]
    | some exId =>
      by_cases h0 : exId = 0
      · subst h0
        simp [coinbaseInitialize, hx, initFailed, jsFalsyId]
      · simp [coinbaseInitialize, hx, initFailed, jsFalsyId, h0]
  · intro exchanges
    cases hx : getExchangeId exchanges "Kraken" with
    | none => simp [krakenInitialize, hx, initFailed, jsFalsyId]
    | some exId =>
      by_cases h0 : exId = 0
      · subst h0
        simp [krakenInitialize, hx, initFailed, jsFalsyId]
      · simp [krakenInitialize, hx, initFailed, jsFalsyId, h0]
  · intro exchanges pairs
    rw [serviceStart]
    split_ifs with h1 h2 h3
    · simp [h1]
    · simp [h1, h2]
    · simp [h1, h2, h3]
    · simp [h1, h2, h3]

/-! ## C9: handleTickerUpdate -/

/-- The fields of a Binance combined-stream ticker payload the handler
reads (s, c, v, b, a); the numeric fields are modelled after parseFloat
as exact rationals. -/
structure BinanceTicker where
  s : String
  c : ℚ
  v : ℚ
  b : ℚ
  a : ℚ
  deriving DecidableEq

/-- The fields of a Kraken ticker payload the handler reads: c[0], v[1],
b[0], a[0], modelled after parseFloat. -/
structure KrakenTicker where
  c0 : ℚ
  v1 : ℚ
  b0 : ℚ
  a0 : ℚ
  deriving DecidableEq

/-- BinanceConnector.handleTickerUpdate: drops the message when the
exchange id is unset (falsy) or the resolved trading pair is not in
reference data (with a warning), otherwise inserts the normalized quote.
The whole body runs inside try/catch, so no error escapes; the returned
pair is the updated table and the warnings logged. -/
def binanceHandleTickerUpdate (pairs : List TradingPair) (exchangeId : Option Nat)
    (t : PricesTable) (data : BinanceTicker) (now : ℤ) : PricesTable × List String :=
  match exchangeId with
  | none => (t, [])
  | some exId =>
      if exId = 0 then (t, [])
      else
        match getTradingPairId pairs (binanceConvertSymbolToTradingPair data.s) with
        | none =>
            (t, ["Trading pair " ++ binanceConvertSymbolToTradingPair data.s
              ++ " not found in database"])
        | some tpId =>
            if tpId = 0 then
              (t, ["Trading pair " ++ binanceConvertSymbolToTradingPair data.s
                ++ " not found in database"])
            else
              (insertPrice t
                { exchangeId := exId
                  tradingPairId := tpId
                  price := data.c
                  volume24h := some data.v
                  bid := some data.b
                  ask := some data.a } now, [])

/-- KrakenConnector.handleTickerUpdate, same shape (the pair name comes
as a separate message element). -/
def krakenHandleTickerUpdate (pairs : List TradingPair) (exchangeId : Option Nat)
    (t : PricesTable) (pair : String) (data : KrakenTicker) (now : ℤ) :
    PricesTable × List String :=
  match exchangeId with
  | none => (t, [])
  | some exId =>
      if exId = 0 then (t, [])
      else
        match getTradingPairId pairs (krakenConvertPairToTradingPair pair) with
        | none =>
            (t, ["Trading pair " ++ krakenConvertPairToTradingPair pair
              ++ " not found in database"])
        | some tpId =>
            if tpId = 0 then
              (t, ["Trading pair " ++ krakenConvertPairToTradingPair pair
                ++ " not found in database"])
            else
              (insertPrice t
                { exchangeId := exId
                  tradingPairId := tpId
                  price := data.c0
                  volume24h := some data.v1
                  bid := some data.b0
                  ask := some data.a0 } now, [])

/-- C9, confirmed.  For Binance and for Kraken: when the normalized
symbol resolves to no trading pair in reference data, the handler
returns the table unchanged (no row inserted) together with exactly one
warning, and returns normally (the function is total, matching the
try/catch boundary that lets no error escape).  The last conjunct runs
the Binance handler on a concrete unknown symbol, DOGEUSDT, against
reference data containing only BTC_USD: the store stays empty and the
warning names the resolved pair DOGE_USDT. -/
theorem c9_unknown_pair_dropped :
    (∀ (pairs : List TradingPair) (n : Nat) (t : PricesTable) (data : BinanceTicker)
        (now : ℤ), n ≠ 0 →
        getTradingPairId pairs (binanceConvertSymbolToTradingPair data.s) = none →
        binanceHandleTickerUpdate pairs (some n) t data now
          = (t, ["Trading pair " ++ binanceConvertSymbolToTradingPair data.s
              ++ " not found in database"]))
    ∧ (∀ (pairs : List TradingPair) (n : Nat) (t : PricesTable) (pair : String)
        (data : KrakenTicker) (now : ℤ), n ≠ 0 →
        getTradingPairId pairs (krakenConvertPairToTradingPair pair) = none →
        krakenHandleTickerUpdate pairs (some n) t pair data now
          = (t, ["Trading pair " ++ krakenConvertPairToTradingPair pair
              ++ " not found in database"]))
    ∧ binanceHandleTickerUpdate [pairBTC] (some 1) emptyTable
        { s := "DOGEUSDT", c := 1, v := 1, b := 1, a := 1 } 0
      = (emptyTable, ["Trading pair DOGE_USDT not found in database"]) := by
  refine ⟨?_, ?_, ?_⟩
  · intro pairs n t data now hn hlook
    rw [binanceHandleTickerUpdate]
    rw [if_neg hn, hlook]
  · intro pairs n t pair data now hn hlook
    rw [krakenHandleTickerUpdate]
    rw [if_neg hn, hlook]
  · rfl

end CryptoArb
